import Mathlib

/-!
# Verification of the C2PA OpenType table codec

A shallow embedding of `fonttools-rs/src/tables/C2PA.rs` (the `C2PA` table
value type with its `Deserialize::from_bytes` and `Serialize::to_bytes`
implementations) together with the small reader/writer substrate it uses
from the `otspec` crate (`ReaderContext` with its table-origin stack,
`de_counted`, and the fixed-layout record codec generated by the `tables!`
macro for `C2PARecordInternal`).

Machine integers are modelled as `Nat` with explicit reductions modulo
`2^16` / `2^32` exactly where the source casts (`as u16`, `as u32`).
Byte buffers are `List Nat` (each entry one byte). Rust's `String` is
modelled as its UTF-8 byte list; the validity check performed by
`str::from_utf8` is embedded as the executable `validUtf8` predicate
below, following the UTF-8 well-formedness rules that `from_utf8`
enforces.
-/

/-- Error kind of a failed decode.  The `otspec` crate's
`DeserializationError` is a string wrapper; the two distinct error
construction sites reachable from the C2PA decoder are the out-of-data
failure inside `de_counted`/primitive reads and the UTF-8 failure raised
in `C2PA::from_bytes`, so the embedding models the error as this
two-constructor type. -/
inductive DeserializationError where
  | outOfData
  | invalidUtf8
deriving DecidableEq, Repr

/-- Modelled from the spec: the `otspec` crate (not under `src/`) provides
the byte cursor with its table-origin stack (§4.1): `input` is the shared
buffer, `ptr` the absolute read position, `stack` the table-origin stack
(most recently pushed origin first). -/
structure ReaderContext where
  input : List Nat
  ptr : Nat
  stack : List Nat
deriving DecidableEq, Repr

namespace ReaderContext

/-- Modelled from the spec (§4.1 `push`): record the current absolute
position as the new active table origin. -/
def push (c : ReaderContext) : ReaderContext :=
  { c with stack := c.ptr :: c.stack }

/-- Modelled from the spec (§4.1 `pop`): discard the most recently pushed
origin, restoring the enclosing one. -/
def pop (c : ReaderContext) : ReaderContext :=
  { c with stack := c.stack.tail }

/-- Modelled from the spec (§4.1 `top_of_table`): the active origin.  An
empty stack is a non-recoverable programmer error in the source; inside
`C2PA::from_bytes` it is only called after `push`, so the default `0` is
never exercised there. -/
def top_of_table (c : ReaderContext) : Nat :=
  c.stack.headD 0

/-- Modelled from the spec (§4.1 `read_counted`): advance the cursor by
exactly `n` bytes and return them, or fail with an out-of-data error if
fewer than `n` bytes remain; on failure the context is unchanged. -/
def de_counted (n : Nat) (c : ReaderContext) :
    Except DeserializationError (List Nat) × ReaderContext :=
  if c.ptr + n ≤ c.input.length then
    (Except.ok ((c.input.drop c.ptr).take n), { c with ptr := c.ptr + n })
  else
    (Except.error .outOfData, c)

/-- Big-endian value of a byte list (the primitive integer codec folds
bytes most-significant first). -/
def bytesToNat (bs : List Nat) : Nat :=
  bs.foldl (fun a b => a * 256 + b) 0

/-- Modelled from the spec (§4.2): read one fixed-width big-endian
unsigned integer of `width` bytes. -/
def readUint (width : Nat) (c : ReaderContext) :
    Except DeserializationError Nat × ReaderContext :=
  match de_counted width c with
  | (Except.ok bs, c') => (Except.ok (bytesToNat bs), c')
  | (Except.error e, c') => (Except.error e, c')

end ReaderContext

/-- The internal C2PA header record, as declared by the `tables!` macro in
`C2PA.rs`: `uint16 majorVersion, uint16 minorVersion,
u32 activeManifestUriOffset, uint16 activeManifestUriLength,
uint16 reserved, u32 manifestStoreOffset, u32 manifestStoreLength`. -/
structure C2PARecordInternal where
  majorVersion : Nat
  minorVersion : Nat
  activeManifestUriOffset : Nat
  activeManifestUriLength : Nat
  reserved : Nat
  manifestStoreOffset : Nat
  manifestStoreLength : Nat
deriving DecidableEq, Repr

namespace C2PARecordInternal

/-- Big-endian encoding of a 2-byte field (`uint16`); reduction mod `2^16`
is the width truncation the wire format imposes. -/
def enc16 (n : Nat) : List Nat :=
  [n / 256 % 256, n % 256]

/-- Big-endian encoding of a 4-byte field (`u32`). -/
def enc32 (n : Nat) : List Nat :=
  [n / 16777216 % 256, n / 65536 % 256, n / 256 % 256, n % 256]

/-- Serialization of the header record: the seven fields in declaration
order, big-endian, 20 bytes in total (the `tables!`-generated
`Serialize` impl). -/
def to_bytes (r : C2PARecordInternal) : List Nat :=
  enc16 r.majorVersion ++ enc16 r.minorVersion ++
    enc32 r.activeManifestUriOffset ++ enc16 r.activeManifestUriLength ++
    enc16 r.reserved ++ enc32 r.manifestStoreOffset ++
    enc32 r.manifestStoreLength

/-- Deserialization of the header record: the seven fields read in
declaration order (the `tables!`-generated `Deserialize` impl), each via
the primitive big-endian integer codec. -/
def from_bytes (c : ReaderContext) :
    Except DeserializationError C2PARecordInternal × ReaderContext :=
  match ReaderContext.readUint 2 c with
  | (Except.error e, c) => (Except.error e, c)
  | (Except.ok majorVersion, c) =>
    match ReaderContext.readUint 2 c with
    | (Except.error e, c) => (Except.error e, c)
    | (Except.ok minorVersion, c) =>
      match ReaderContext.readUint 4 c with
      | (Except.error e, c) => (Except.error e, c)
      | (Except.ok activeManifestUriOffset, c) =>
        match ReaderContext.readUint 2 c with
        | (Except.error e, c) => (Except.error e, c)
        | (Except.ok activeManifestUriLength, c) =>
          match ReaderContext.readUint 2 c with
          | (Except.error e, c) => (Except.error e, c)
          | (Except.ok reserved, c) =>
            match ReaderContext.readUint 4 c with
            | (Except.error e, c) => (Except.error e, c)
            | (Except.ok manifestStoreOffset, c) =>
              match ReaderContext.readUint 4 c with
              | (Except.error e, c) => (Except.error e, c)
              | (Except.ok manifestStoreLength, c) =>
                (Except.ok
                  { majorVersion, minorVersion, activeManifestUriOffset,
                    activeManifestUriLength, reserved, manifestStoreOffset,
                    manifestStoreLength }, c)

end C2PARecordInternal

/-- UTF-8 validity of a byte list, as enforced by Rust's
`str::from_utf8`: ASCII bytes stand alone; `C2..DF` start a 2-byte
sequence; `E0/E1..EC/ED/EE..EF` start 3-byte sequences with the standard
restricted first continuation (no overlongs, no surrogates);
`F0/F1..F3/F4` start 4-byte sequences (no overlongs, max `U+10FFFF`);
continuation bytes are `80..BF`. -/
def validUtf8 : List Nat → Bool
  | [] => true
  | b :: rest =>
    if b ≤ 0x7F then validUtf8 rest
    else if b < 0xC2 then false
    else if b ≤ 0xDF then
      match rest with
      | c1 :: rest1 =>
        if 0x80 ≤ c1 ∧ c1 ≤ 0xBF then validUtf8 rest1 else false
      | [] => false
    else if b ≤ 0xEF then
      match rest with
      | c1 :: c2 :: rest2 =>
        let lo1 := if b = 0xE0 then 0xA0 else 0x80
        let hi1 := if b = 0xED then 0x9F else 0xBF
        if (lo1 ≤ c1 ∧ c1 ≤ hi1) ∧ (0x80 ≤ c2 ∧ c2 ≤ 0xBF) then
          validUtf8 rest2
        else false
      | _ => false
    else if b ≤ 0xF4 then
      match rest with
      | c1 :: c2 :: c3 :: rest3 =>
        let lo1 := if b = 0xF0 then 0x90 else 0x80
        let hi1 := if b = 0xF4 then 0x8F else 0xBF
        if (lo1 ≤ c1 ∧ c1 ≤ hi1) ∧ (0x80 ≤ c2 ∧ c2 ≤ 0xBF) ∧
            (0x80 ≤ c3 ∧ c3 ≤ 0xBF) then
          validUtf8 rest3
        else false
      | _ => false
    else false

/-- The caller-facing C2PA table value (`pub struct C2PA`): fixed scalar
version fields (`u16` in the source, embedded as `Nat`), an optional
active-manifest URI (a Rust `String`, embedded as its UTF-8 byte list)
and an optional opaque manifest store (`Box<[u8]>`, embedded as a byte
list). -/
structure C2PA where
  majorVersion : Nat
  minorVersion : Nat
  activeManifestUri : Option (List Nat)
  manifestStore : Option (List Nat)
deriving DecidableEq, Repr

namespace C2PA

/-- The header record built by `C2PA::to_bytes`: the fixed header is 20
bytes, an absent optional field keeps offset/length 0; a present URI gets
offset 20 and length `len as u16` (reduction mod `2^16`); a present store
gets offset `20 + active_manifest_length` and length `len as u32`
(reduction mod `2^32`); `reserved` is written as 0. -/
def to_record (v : C2PA) : C2PARecordInternal :=
  let offset := 20
  let (active_manifest_offset, active_manifest_length) :=
    match v.activeManifestUri with
    | some val => (offset, val.length % 65536)
    | none => (0, 0)
  let (manifest_store_offset, manifest_store_length) :=
    match v.manifestStore with
    | some val => (offset + active_manifest_length, val.length % 4294967296)
    | none => (0, 0)
  { majorVersion := v.majorVersion
    minorVersion := v.minorVersion
    activeManifestUriOffset := active_manifest_offset
    activeManifestUriLength := active_manifest_length
    reserved := 0
    manifestStoreOffset := manifest_store_offset
    manifestStoreLength := manifest_store_length }

/-- The data pool accumulated by `C2PA::to_bytes` (`c2pa_data_pool`): the
URI bytes if present, then the store bytes if present. -/
def to_pool (v : C2PA) : List Nat :=
  (match v.activeManifestUri with
    | some val => val
    | none => []) ++
  (match v.manifestStore with
    | some val => val
    | none => [])

/-- `C2PA::to_bytes`: the header record followed by the data pool.  (The
source's `Result` never carries an error on this path; serialization is
total.) -/
def to_bytes (v : C2PA) : List Nat :=
  (to_record v).to_bytes ++ to_pool v

/-- `C2PA::from_bytes`: push the current position as the table origin,
read the internal header record, then resolve the two optional fields by
seeking `top_of_table() + offset` and reading `length` counted bytes (the
URI additionally UTF-8 checked); the origin is popped on the success path
only — each `?` in the source propagates its error immediately.  The
resulting context is returned alongside the result to expose the cursor
and origin-stack state the source leaves behind. -/
def from_bytes (c0 : ReaderContext) :
    Except DeserializationError C2PA × ReaderContext :=
  let c := c0.push
  match C2PARecordInternal.from_bytes c with
  | (Except.error e, c) => (Except.error e, c)
  | (Except.ok internal_record, c) =>
    match
      (if internal_record.activeManifestUriOffset > 0 then
        let c := { c with
          ptr := c.top_of_table + internal_record.activeManifestUriOffset }
        match c.de_counted internal_record.activeManifestUriLength with
        | (Except.error e, c) => (Except.error e, c)
        | (Except.ok uri_as_bytes, c) =>
          if validUtf8 uri_as_bytes then (Except.ok (some uri_as_bytes), c)
          else (Except.error .invalidUtf8, c)
      else (Except.ok none, c)) with
    | (Except.error e, c) => (Except.error e, c)
    | (Except.ok active_manifest_uri, c) =>
      match
        (if internal_record.manifestStoreOffset > 0 then
          let c := { c with
            ptr := c.top_of_table + internal_record.manifestStoreOffset }
          match c.de_counted internal_record.manifestStoreLength with
          | (Except.error e, c) => (Except.error e, c)
          | (Except.ok store_as_bytes, c) => (Except.ok (some store_as_bytes), c)
        else (Except.ok none, c)) with
      | (Except.error e, c) => (Except.error e, c)
      | (Except.ok manifest_store, c) =>
        (Except.ok
          { majorVersion := internal_record.majorVersion
            minorVersion := internal_record.minorVersion
            activeManifestUri := active_manifest_uri
            manifestStore := manifest_store }, c.pop)

end C2PA

/-- `otspec::de::from_bytes`: decode a table value from a fresh buffer
(cursor at 0, empty origin stack), discarding the transient context. -/
def decode (bs : List Nat) : Except DeserializationError C2PA :=
  (C2PA.from_bytes { input := bs, ptr := 0, stack := [] }).1

deriving instance DecidableEq for Except

namespace ReaderContext

lemma de_counted_ok (n : Nat) (inp : List Nat) (p : Nat) (st : List Nat)
    (h : p + n ≤ inp.length) :
    de_counted n ⟨inp, p, st⟩ =
      (Except.ok ((inp.drop p).take n), ⟨inp, p + n, st⟩) := by
  simp [de_counted, h]

lemma de_counted_err (n : Nat) (inp : List Nat) (p : Nat) (st : List Nat)
    (h : inp.length < p + n) :
    de_counted n ⟨inp, p, st⟩ = (Except.error .outOfData, ⟨inp, p, st⟩) := by
  simp [de_counted]
  omega

end ReaderContext

namespace C2PARecordInternal

lemma length_to_bytes (r : C2PARecordInternal) : r.to_bytes.length = 20 := rfl

set_option maxHeartbeats 1000000 in
lemma from_bytes_to_bytes (f1 f2 f3 f4 f5 f6 f7 : Nat) (rest st : List Nat)
    (h1 : f1 < 65536) (h2 : f2 < 65536) (h3 : f3 < 4294967296)
    (h4 : f4 < 65536) (h5 : f5 < 65536) (h6 : f6 < 4294967296)
    (h7 : f7 < 4294967296) :
    from_bytes ⟨(mk f1 f2 f3 f4 f5 f6 f7).to_bytes ++ rest, 0, st⟩ =
      (Except.ok (mk f1 f2 f3 f4 f5 f6 f7),
        ⟨(mk f1 f2 f3 f4 f5 f6 f7).to_bytes ++ rest, 20, st⟩) := by
  simp only [to_bytes, enc16, enc32, List.cons_append, List.nil_append]
  simp only [from_bytes, ReaderContext.readUint, ReaderContext.de_counted,
    ReaderContext.bytesToNat]
  split_ifs <;>
    simp_all [mk.injEq, ReaderContext.mk.injEq, Prod.ext_iff] <;> omega

lemma from_bytes_short (inp : List Nat) (st : List Nat)
    (h : inp.length < 20) :
    ∃ c', from_bytes ⟨inp, 0, st⟩ = (Except.error .outOfData, c') := by
  rcases Nat.lt_or_ge inp.length 2 with h1 | h1
  · exact ⟨⟨inp, 0, st⟩, by simp [from_bytes, ReaderContext.readUint,
      ReaderContext.de_counted, Nat.not_le.mpr h1]⟩
  rcases Nat.lt_or_ge inp.length 4 with h2 | h2
  · exact ⟨⟨inp, 2, st⟩, by simp [from_bytes, ReaderContext.readUint,
      ReaderContext.de_counted, h1, Nat.not_le.mpr h2]⟩
  rcases Nat.lt_or_ge inp.length 8 with h3 | h3
  · exact ⟨⟨inp, 4, st⟩, by simp [from_bytes, ReaderContext.readUint,
      ReaderContext.de_counted, h1, h2, Nat.not_le.mpr h3]⟩
  rcases Nat.lt_or_ge inp.length 10 with h4 | h4
  · exact ⟨⟨inp, 8, st⟩, by simp [from_bytes, ReaderContext.readUint,
      ReaderContext.de_counted, h1, h2, h3, Nat.not_le.mpr h4]⟩
  rcases Nat.lt_or_ge inp.length 12 with h5 | h5
  · exact ⟨⟨inp, 10, st⟩, by simp [from_bytes, ReaderContext.readUint,
      ReaderContext.de_counted, h1, h2, h3, h4, Nat.not_le.mpr h5]⟩
  rcases Nat.lt_or_ge inp.length 16 with h6 | h6
  · exact ⟨⟨inp, 12, st⟩, by simp [from_bytes, ReaderContext.readUint,
      ReaderContext.de_counted, h1, h2, h3, h4, h5, Nat.not_le.mpr h6]⟩
  · exact ⟨⟨inp, 16, st⟩, by simp [from_bytes, ReaderContext.readUint,
      ReaderContext.de_counted, h1, h2, h3, h4, h5, h6, Nat.not_le.mpr h]⟩

end C2PARecordInternal

namespace C2PA

lemma to_bytes_none_none (M m : Nat) :
    to_bytes ⟨M, m, none, none⟩ =
      (C2PARecordInternal.mk M m 0 0 0 0 0).to_bytes ++ [] := by
  simp [to_bytes, to_record, to_pool]

lemma to_bytes_none_some (M m : Nat) (s : List Nat) :
    to_bytes ⟨M, m, none, some s⟩ =
      (C2PARecordInternal.mk M m 0 0 0 20 (s.length % 4294967296)).to_bytes ++ s := by
  simp [to_bytes, to_record, to_pool]

lemma to_bytes_some_none (M m : Nat) (u : List Nat) :
    to_bytes ⟨M, m, some u, none⟩ =
      (C2PARecordInternal.mk M m 20 (u.length % 65536) 0 0 0).to_bytes ++ u := by
  simp [to_bytes, to_record, to_pool]

lemma to_bytes_some_some (M m : Nat) (u s : List Nat) :
    to_bytes ⟨M, m, some u, some s⟩ =
      (C2PARecordInternal.mk M m 20 (u.length % 65536) 0 (20 + u.length % 65536)
        (s.length % 4294967296)).to_bytes ++ (u ++ s) := by
  simp [to_bytes, to_record, to_pool]

set_option maxHeartbeats 1000000 in
lemma decode_to_bytes (v : C2PA)
    (hM : v.majorVersion < 65536) (hm : v.minorVersion < 65536)
    (hu : ∀ u, v.activeManifestUri = some u → u.length < 65536 ∧ validUtf8 u = true)
    (hs : ∀ s, v.manifestStore = some s → s.length < 4294967296) :
    decode (to_bytes v) = Except.ok v := by
  obtain ⟨M, m, uo, so⟩ := v
  simp only at hM hm hu hs
  unfold decode from_bytes
  simp only [ReaderContext.push]
  cases uo with
  | none =>
    cases so with
    | none =>
      rw [to_bytes_none_none,
        C2PARecordInternal.from_bytes_to_bytes M m 0 0 0 0 0 [] [0] hM hm
          (by omega) (by omega) (by omega) (by omega) (by omega)]
      simp [ReaderContext.pop]
    | some s =>
      have hs' := hs s rfl
      rw [to_bytes_none_some]
      simp only [Nat.mod_eq_of_lt hs']
      rw [C2PARecordInternal.from_bytes_to_bytes M m 0 0 0 20 s.length s [0] hM hm
        (by omega) (by omega) (by omega) (by omega) (by omega)]
      have e1 : List.drop 20
          ((C2PARecordInternal.mk M m 0 0 0 20 s.length).to_bytes ++ s) = s :=
        List.drop_left' (C2PARecordInternal.length_to_bytes _)
      have e2 : List.take s.length s = s := List.take_length s
      simp [ReaderContext.de_counted, ReaderContext.top_of_table,
        ReaderContext.pop, e1, e2, C2PARecordInternal.length_to_bytes]
  | some u =>
    obtain ⟨hulen, huval⟩ := hu u rfl
    cases so with
    | none =>
      rw [to_bytes_some_none]
      simp only [Nat.mod_eq_of_lt hulen]
      rw [C2PARecordInternal.from_bytes_to_bytes M m 20 u.length 0 0 0 u [0] hM hm
        (by omega) (by omega) (by omega) (by omega) (by omega)]
      have e1 : List.drop 20
          ((C2PARecordInternal.mk M m 20 u.length 0 0 0).to_bytes ++ u) = u :=
        List.drop_left' (C2PARecordInternal.length_to_bytes _)
      have e2 : List.take u.length u = u := List.take_length u
      simp [ReaderContext.de_counted, ReaderContext.top_of_table,
        ReaderContext.pop, e1, e2, huval, C2PARecordInternal.length_to_bytes]
    | some s =>
      have hs' := hs s rfl
      rw [to_bytes_some_some]
      simp only [Nat.mod_eq_of_lt hulen, Nat.mod_eq_of_lt hs']
      rw [C2PARecordInternal.from_bytes_to_bytes M m 20 u.length 0 (20 + u.length)
        s.length (u ++ s) [0] hM hm (by omega) (by omega) (by omega) (by omega)
        (by omega)]
      have e1 : List.drop 20
          ((C2PARecordInternal.mk M m 20 u.length 0 (20 + u.length)
            s.length).to_bytes ++ (u ++ s)) = u ++ s :=
        List.drop_left' (C2PARecordInternal.length_to_bytes _)
      have e2 : List.take u.length (u ++ s) = u := List.take_left u s
      have e3 : List.drop (20 + u.length)
          ((C2PARecordInternal.mk M m 20 u.length 0 (20 + u.length)
            s.length).to_bytes ++ (u ++ s)) = s := by
        rw [← List.append_assoc]
        exact List.drop_left' (by
          simp [C2PARecordInternal.length_to_bytes, Nat.add_comm])
      have e4 : List.take s.length s = s := List.take_length s
      have e5 : 20 + u.length + s.length ≤ 20 + (u.length + s.length) := by omega
      simp [ReaderContext.de_counted, ReaderContext.top_of_table,
        ReaderContext.pop, e1, e2, e3, e4, e5, huval,
        C2PARecordInternal.length_to_bytes]

end C2PA

/-- For a URI of exactly `2^16` bytes (and no store), the encoder writes
URI length `65536 % 2^16 = 0`, so the decoder reads back an empty URI. -/
lemma decode_to_bytes_of_length_65536 (u : List Nat)
    (hlen : u.length = 65536) :
    decode (C2PA.to_bytes ⟨0, 1, some u, none⟩) =
      Except.ok ⟨0, 1, some [], none⟩ := by
  rw [C2PA.to_bytes_some_none, hlen]
  norm_num
  unfold decode C2PA.from_bytes
  simp only [ReaderContext.push]
  rw [C2PARecordInternal.from_bytes_to_bytes 0 1 20 0 0 0 0 u [0]
    (by omega) (by omega) (by omega) (by omega) (by omega) (by omega)
    (by omega)]
  have hL : ((C2PARecordInternal.mk 0 1 20 0 0 0 0).to_bytes ++ u).length =
      20 + 65536 := by
    simp [C2PARecordInternal.length_to_bytes, hlen]
  simp [ReaderContext.de_counted, ReaderContext.top_of_table,
    ReaderContext.pop, hL, show validUtf8 [] = true from rfl]

/-- The bytes of the `"test-data"` store payload used by the source's
unit tests. -/
def testData : List Nat := [0x74, 0x65, 0x73, 0x74, 0x2D, 0x64, 0x61, 0x74, 0x61]

/-- The bytes of the `"file://a"` URI payload used by the source's unit
tests. -/
def fileUriA : List Nat := [0x66, 0x69, 0x6C, 0x65, 0x3A, 0x2F, 0x2F, 0x61]

/-- C2: in every encoded header, an absent optional field has offset and
length exactly 0; a present field's offset is positive and equals the
header size (the length of the serialized fixed header, 20) plus the sum
of the header-declared lengths of all earlier present optional fields in
declaration order (the URI field first, then the store; the URI's
header-declared length is its payload length as written in the `uint16`
length field). -/
theorem offset_sentinel (v : C2PA) :
    (v.activeManifestUri = none →
      (C2PA.to_record v).activeManifestUriOffset = 0 ∧
      (C2PA.to_record v).activeManifestUriLength = 0) ∧
    (v.manifestStore = none →
      (C2PA.to_record v).manifestStoreOffset = 0 ∧
      (C2PA.to_record v).manifestStoreLength = 0) ∧
    (∀ u, v.activeManifestUri = some u →
      0 < (C2PA.to_record v).activeManifestUriOffset ∧
      (C2PA.to_record v).activeManifestUriOffset =
        (C2PA.to_record v).to_bytes.length) ∧
    (∀ s, v.manifestStore = some s →
      0 < (C2PA.to_record v).manifestStoreOffset ∧
      (C2PA.to_record v).manifestStoreOffset =
        (C2PA.to_record v).to_bytes.length +
          (C2PA.to_record v).activeManifestUriLength) := by
  obtain ⟨M, m, uo, so⟩ := v
  cases uo <;> cases so <;>
    simp [C2PA.to_record, C2PARecordInternal.length_to_bytes]

/-- C2 witness: at the value with both optional fields present from the
source's `c2pa_otspec` test, the store offset is the header size plus the
URI's declared length. -/
theorem offset_sentinel_witness :
    0 < (C2PA.to_record ⟨0, 1, some fileUriA, some testData⟩).manifestStoreOffset ∧
    (C2PA.to_record ⟨0, 1, some fileUriA, some testData⟩).manifestStoreOffset =
      (C2PA.to_record ⟨0, 1, some fileUriA, some testData⟩).to_bytes.length +
        (C2PA.to_record ⟨0, 1, some fileUriA, some testData⟩).activeManifestUriLength :=
  (offset_sentinel ⟨0, 1, some fileUriA, some testData⟩).2.2.2 testData rfl

/-- C4 counterexample: encoding `{uri: Some("file://a"), store: None}`
writes `activeManifestUriOffset = 0x14`, not `0x12` as the claim (18-byte
v1 header arithmetic) states. -/
theorem encode_uri_offset_not_18 :
    (C2PA.to_record ⟨0, 1, some fileUriA, none⟩).activeManifestUriOffset ≠ 0x12 := by
  decide

/-- C4 amended: encoding `{uri: Some("file://a"), store: None}` writes
`activeManifestUriOffset = 0x14, activeManifestUriLength = 0x08,
manifestStoreOffset = 0, manifestStoreLength = 0` with pool
`"file://a"`; and for any value with both optional fields present whose
URI is shorter than `2^16` bytes, `manifestStoreOffset = 20 + len(uri)`
and the pool is the URI bytes followed by the store bytes. -/
theorem encode_offsets_20_based :
    (C2PA.to_record ⟨0, 1, some fileUriA, none⟩ =
        ⟨0, 1, 0x14, 0x08, 0, 0, 0⟩ ∧
      C2PA.to_bytes ⟨0, 1, some fileUriA, none⟩ =
        [0, 0, 0, 1, 0, 0, 0, 0x14, 0, 8, 0, 0,
          0, 0, 0, 0, 0, 0, 0, 0] ++ fileUriA) ∧
    (∀ M m u s, u.length < 65536 →
      (C2PA.to_record ⟨M, m, some u, some s⟩).manifestStoreOffset =
        20 + u.length ∧
      C2PA.to_pool ⟨M, m, some u, some s⟩ = u ++ s) := by
  refine ⟨by decide, ?_⟩
  intro M m u s h
  simp [C2PA.to_record, C2PA.to_pool, Nat.mod_eq_of_lt h]

/-- C4 witness: with both test payloads present, the store offset is
`20 + 8` and the pool is the URI bytes then the store bytes. -/
theorem encode_offsets_20_based_witness :
    (C2PA.to_record ⟨0, 1, some fileUriA, some testData⟩).manifestStoreOffset =
      20 + fileUriA.length ∧
    C2PA.to_pool ⟨0, 1, some fileUriA, some testData⟩ = fileUriA ++ testData :=
  encode_offsets_20_based.2 0 1 fileUriA testData (by decide)

/-- C10: encoding a value with a present URI writes the URI's byte length
reduced modulo `2^16` into the `uint16` length field, still appends the
whole URI to the pool, and places the store offset at `20` plus the
reduced length; so for a URI of `2^16` bytes or more the declared length
and store offset disagree with the actual pool layout. -/
theorem uri_length_truncation (M m : Nat) (u : List Nat)
    (os : Option (List Nat)) :
    (C2PA.to_record ⟨M, m, some u, os⟩).activeManifestUriLength =
      u.length % 65536 ∧
    C2PA.to_pool ⟨M, m, some u, os⟩ = u ++ os.getD [] ∧
    (∀ s, os = some s →
      (C2PA.to_record ⟨M, m, some u, some s⟩).manifestStoreOffset =
        20 + u.length % 65536) ∧
    (65536 ≤ u.length →
      (C2PA.to_record ⟨M, m, some u, os⟩).activeManifestUriLength ≠
        u.length ∧
      ∀ s, os = some s →
        (C2PA.to_record ⟨M, m, some u, some s⟩).manifestStoreOffset ≠
          20 + u.length) := by
  cases os with
  | none =>
    refine ⟨by simp [C2PA.to_record], by simp [C2PA.to_pool], ?_, ?_⟩
    · intro s hs
      cases hs
    · intro h
      refine ⟨by simp [C2PA.to_record]; omega, ?_⟩
      intro s hs
      cases hs
  | some s0 =>
    refine ⟨by simp [C2PA.to_record], by simp [C2PA.to_pool], ?_, ?_⟩
    · intro s hs
      cases hs
      simp [C2PA.to_record]
    · intro h
      refine ⟨by simp [C2PA.to_record]; omega, ?_⟩
      intro s hs
      cases hs
      simp [C2PA.to_record]
      omega

/-- C10 witness: a URI of exactly `2^16` bytes is declared with length
`0`, which is not its actual length. -/
theorem uri_length_truncation_witness :
    (C2PA.to_record ⟨0, 1, some (List.replicate 65536 97),
        some [7]⟩).activeManifestUriLength ≠
      (List.replicate 65536 97).length :=
  ((uri_length_truncation 0 1 (List.replicate 65536 97) (some [7])).2.2.2
    (by rw [List.length_replicate])).1

/-- C9: a present-but-empty URI is encoded with offset 20 and length 0,
its encoding differs from the absent-URI encoding (offset 0, length 0),
and decoding the encoding returns `Some` of the empty payload, not
`None`. -/
theorem present_empty_field_roundtrip (M m : Nat)
    (hM : M < 65536) (hm : m < 65536) :
    (C2PA.to_record ⟨M, m, some [], none⟩).activeManifestUriOffset = 20 ∧
    (C2PA.to_record ⟨M, m, some [], none⟩).activeManifestUriLength = 0 ∧
    (C2PA.to_record ⟨M, m, none, none⟩).activeManifestUriOffset = 0 ∧
    C2PA.to_bytes ⟨M, m, some [], none⟩ ≠ C2PA.to_bytes ⟨M, m, none, none⟩ ∧
    decode (C2PA.to_bytes ⟨M, m, some [], none⟩) =
      Except.ok ⟨M, m, some [], none⟩ := by
  refine ⟨by simp [C2PA.to_record], by simp [C2PA.to_record],
    by simp [C2PA.to_record], ?_, ?_⟩
  · simp [C2PA.to_bytes_some_none, C2PA.to_bytes_none_none,
      C2PARecordInternal.to_bytes, C2PARecordInternal.enc16,
      C2PARecordInternal.enc32]
  · exact C2PA.decode_to_bytes ⟨M, m, some [], none⟩ hM hm
      (by rintro u hu; cases hu; exact ⟨by norm_num, rfl⟩)
      (by rintro s hs; cases hs)

/-- C9 witness: at versions 0.1, the empty-URI value round-trips to
`Some` of the empty payload. -/
theorem present_empty_field_roundtrip_witness :
    decode (C2PA.to_bytes ⟨0, 1, some [], none⟩) =
      Except.ok ⟨0, 1, some [], none⟩ :=
  (present_empty_field_roundtrip 0 1 (by decide) (by decide)).2.2.2.2

/-- C5: decoding the 4-byte buffer `00 00 00 01` (shorter than the
header) fails with an out-of-data error, and the table origin pushed at
the start of `from_bytes` is still on the stack when the error
propagates: the final origin stack is `[0]`, one entry deeper than the
empty stack at entry, because every error path returns before the `pop`
call. -/
theorem origin_stack_leak_on_error :
    C2PA.from_bytes ⟨[0, 0, 0, 1], 0, []⟩ =
      (Except.error DeserializationError.outOfData, ⟨[0, 0, 0, 1], 4, [0]⟩) ∧
    (C2PA.from_bytes ⟨[0, 0, 0, 1], 0, []⟩).2.stack.length ≠
      ([] : List Nat).length := by
  decide

/-- C3 counterexample: the v1 (18-byte header) byte sequence
`00 00 00 01 00 00 00 00 00 00 00 00 00 12 00 00 00 09 "test-data"` does
not decode to `{major 0, minor 1, uri None, store Some("test-data")}`;
the decoder reads the fixed 20-byte v2 header unconditionally, so these
bytes parse as a garbage store offset/length and decoding fails with an
out-of-data error. -/
theorem v1_layout_bytes_do_not_decode :
    decode ([0x00, 0x00, 0x00, 0x01, 0, 0, 0, 0, 0, 0,
        0, 0, 0, 0x12, 0, 0, 0, 0x09] ++ testData) =
      Except.error DeserializationError.outOfData ∧
    decode ([0x00, 0x00, 0x00, 0x01, 0, 0, 0, 0, 0, 0,
        0, 0, 0, 0x12, 0, 0, 0, 0x09] ++ testData) ≠
      Except.ok ⟨0, 1, none, some testData⟩ := by
  decide

/-- C3 amended: the codec supports only the v2 (20-byte header) layout;
the corresponding v2 byte sequence
`00 00 00 01 00 00 00 00 00 00 00 00 00 00 00 14 00 00 00 09
"test-data"` decodes to `{major 0, minor 1, uri None,
store Some("test-data")}` and re-encoding reproduces the identical byte
sequence, while the 18-byte-header v1 sequence fails to decode. -/
theorem v2_layout_scenario_roundtrip :
    decode ([0x00, 0x00, 0x00, 0x01, 0, 0, 0, 0, 0, 0,
        0, 0, 0, 0, 0, 0x14, 0, 0, 0, 0x09] ++ testData) =
      Except.ok ⟨0, 1, none, some testData⟩ ∧
    C2PA.to_bytes ⟨0, 1, none, some testData⟩ =
      [0x00, 0x00, 0x00, 0x01, 0, 0, 0, 0, 0, 0,
        0, 0, 0, 0, 0, 0x14, 0, 0, 0, 0x09] ++ testData := by
  decide

/-- C1 counterexample: the round-trip is not universal.  For the value
with a `2^16`-byte URI (and no store), the encoder writes URI length
`0 = 65536 mod 2^16`, so decoding the encoding yields `Some ""` instead
of the original URI: `decode (encode v) ≠ v`. -/
theorem roundtrip_fails_on_large_uri :
    decode (C2PA.to_bytes ⟨0, 1, some (List.replicate 65536 97), none⟩) =
      Except.ok ⟨0, 1, some [], none⟩ ∧
    (⟨0, 1, some [], none⟩ : C2PA) ≠
      ⟨0, 1, some (List.replicate 65536 97), none⟩ := by
  constructor
  · exact decode_to_bytes_of_length_65536 (List.replicate 65536 97)
      (List.length_replicate 65536 97)
  · intro h
    have h2 : (some [] : Option (List Nat)) =
        some (List.replicate 65536 97) := congrArg C2PA.activeManifestUri h
    have h3 : ([] : List Nat) = List.replicate 65536 97 := by injection h2
    have h4 := congrArg List.length h3
    rw [List.length_replicate] at h4
    simp at h4

/-- C1 amended: the round-trip `decode (encode v) = v` holds for every
table value whose URI (when present) is shorter than `2^16` bytes and
valid UTF-8 (a Rust `String` is always valid UTF-8; the length bound is
forced by the `as u16` cast the counterexample exhibits) and whose store
(when present) is shorter than `2^32` bytes, for any major/minor version
in `u16` range. -/
theorem roundtrip_decode_encode (v : C2PA)
    (hM : v.majorVersion < 65536) (hm : v.minorVersion < 65536)
    (hu : ∀ u, v.activeManifestUri = some u →
      u.length < 65536 ∧ validUtf8 u = true)
    (hs : ∀ s, v.manifestStore = some s → s.length < 4294967296) :
    decode (C2PA.to_bytes v) = Except.ok v :=
  C2PA.decode_to_bytes v hM hm hu hs

/-- C1 witness: the value from the source's `c2pa_otspec` test (both
fields present) round-trips. -/
theorem roundtrip_decode_encode_witness :
    decode (C2PA.to_bytes ⟨0, 1, some fileUriA, some testData⟩) =
      Except.ok ⟨0, 1, some fileUriA, some testData⟩ :=
  roundtrip_decode_encode ⟨0, 1, some fileUriA, some testData⟩
    (by decide) (by decide)
    (by rintro u hu; cases hu; exact ⟨by decide, by decide⟩)
    (by rintro s hs; cases hs; decide)

/-- C8: decoding a v2-layout buffer whose 2-byte reserved field holds any
value succeeds with a result that does not carry the reserved value, and
re-encoding that result writes the reserved field as 0. -/
theorem reserved_field_tolerance (rv : Nat) (hrv : rv < 65536) :
    decode ((C2PARecordInternal.mk 0 1 0 0 rv 20 9).to_bytes ++ testData) =
      Except.ok ⟨0, 1, none, some testData⟩ ∧
    C2PA.to_bytes ⟨0, 1, none, some testData⟩ =
      (C2PARecordInternal.mk 0 1 0 0 0 20 9).to_bytes ++ testData ∧
    (C2PA.to_record ⟨0, 1, none, some testData⟩).reserved = 0 := by
  refine ⟨?_, by decide, by decide⟩
  unfold decode C2PA.from_bytes
  simp only [ReaderContext.push]
  rw [C2PARecordInternal.from_bytes_to_bytes 0 1 0 0 rv 20 9 testData [0]
    (by omega) (by omega) (by omega) (by omega) hrv (by omega) (by omega)]
  have e1 : List.drop 20
      ((C2PARecordInternal.mk 0 1 0 0 rv 20 9).to_bytes ++ testData) =
      testData :=
    List.drop_left' (C2PARecordInternal.length_to_bytes _)
  have hL : ((C2PARecordInternal.mk 0 1 0 0 rv 20 9).to_bytes ++
      testData).length = 29 := by
    simp [C2PARecordInternal.length_to_bytes, testData]
  simp [ReaderContext.de_counted, ReaderContext.top_of_table,
    ReaderContext.pop, e1, hL, show List.take 9 testData = testData from rfl]

/-- C8 witness: the nonzero reserved value `0xABCD` is tolerated on
decode and the decoded value re-encodes with reserved written as 0. -/
theorem reserved_field_tolerance_witness :
    decode ((C2PARecordInternal.mk 0 1 0 0 0xABCD 20 9).to_bytes ++
        testData) = Except.ok ⟨0, 1, none, some testData⟩ ∧
    C2PA.to_bytes ⟨0, 1, none, some testData⟩ =
      (C2PARecordInternal.mk 0 1 0 0 0 20 9).to_bytes ++ testData :=
  ⟨(reserved_field_tolerance 0xABCD (by decide)).1,
    (reserved_field_tolerance 0xABCD (by decide)).2.1⟩

/-- C6: decoding a buffer shorter than the 20-byte header fails with an
out-of-data error; for a buffer whose header declares a present URI whose
(offset, length) range passes the buffer end, decode fails with an
out-of-data error; for a present store whose range passes the buffer end,
decode never succeeds, and it fails with an out-of-data error both when
the URI is absent and when the URI payload is in range and valid UTF-8
(when the URI payload itself is invalid, decode fails earlier with the
UTF-8 error, still never returning truncated data). -/
theorem decode_out_of_data_boundary (inp : List Nat) :
    (inp.length < 20 → decode inp = Except.error DeserializationError.outOfData) ∧
    (∀ r, C2PARecordInternal.from_bytes ⟨inp, 0, [0]⟩ =
        (Except.ok r, ⟨inp, 20, [0]⟩) →
      (0 < r.activeManifestUriOffset →
        inp.length < r.activeManifestUriOffset + r.activeManifestUriLength →
        decode inp = Except.error DeserializationError.outOfData) ∧
      (0 < r.manifestStoreOffset →
        inp.length < r.manifestStoreOffset + r.manifestStoreLength →
        (∀ v, decode inp ≠ Except.ok v) ∧
        (r.activeManifestUriOffset = 0 →
          decode inp = Except.error DeserializationError.outOfData) ∧
        (0 < r.activeManifestUriOffset →
          r.activeManifestUriOffset + r.activeManifestUriLength ≤ inp.length →
          validUtf8 (List.take r.activeManifestUriLength
            (List.drop r.activeManifestUriOffset inp)) = true →
          decode inp = Except.error DeserializationError.outOfData))) := by
  constructor
  · intro h
    obtain ⟨c', hc⟩ := C2PARecordInternal.from_bytes_short inp [0] h
    unfold decode C2PA.from_bytes
    simp only [ReaderContext.push]
    rw [hc]
  · intro r hr
    constructor
    · intro hoff hrange
      have hno : ¬(r.activeManifestUriOffset + r.activeManifestUriLength ≤
          inp.length) := by omega
      unfold decode C2PA.from_bytes
      simp only [ReaderContext.push]
      rw [hr]
      simp [ReaderContext.de_counted, ReaderContext.top_of_table, hoff, hno]
    · intro hsoff hsrange
      have hnos : ¬(r.manifestStoreOffset + r.manifestStoreLength ≤
          inp.length) := by omega
      refine ⟨?_, ?_, ?_⟩
      · intro v hv
        unfold decode C2PA.from_bytes at hv
        simp only [ReaderContext.push] at hv
        rw [hr] at hv
        by_cases huo : 0 < r.activeManifestUriOffset
        · by_cases hur : r.activeManifestUriOffset +
              r.activeManifestUriLength ≤ inp.length
          · by_cases huv : validUtf8 (List.take r.activeManifestUriLength
                (List.drop r.activeManifestUriOffset inp)) = true
            · simp [ReaderContext.de_counted, ReaderContext.top_of_table,
                huo, hur, huv, hsoff, hnos] at hv
            · simp [ReaderContext.de_counted, ReaderContext.top_of_table,
                huo, hur, huv, hsoff, hnos] at hv
          · simp [ReaderContext.de_counted, ReaderContext.top_of_table,
              huo, hur, hsoff, hnos] at hv
        · simp [ReaderContext.de_counted, ReaderContext.top_of_table,
            huo, hsoff, hnos] at hv
      · intro huz
        unfold decode C2PA.from_bytes
        simp only [ReaderContext.push]
        rw [hr]
        simp [ReaderContext.de_counted, ReaderContext.top_of_table, huz,
          hsoff, hnos]
      · intro huo hur huv
        unfold decode C2PA.from_bytes
        simp only [ReaderContext.push]
        rw [hr]
        simp [ReaderContext.de_counted, ReaderContext.top_of_table, huo,
          hur, huv, hsoff, hnos]

/-- C6 witness: the empty buffer, a buffer whose declared URI range
passes the end, and a buffer whose declared store range passes the end
all fail with out-of-data errors. -/
theorem decode_out_of_data_boundary_witness :
    decode [] = Except.error DeserializationError.outOfData ∧
    decode ([0, 0, 0, 1, 0, 0, 0, 0x14, 0, 5, 0, 0,
        0, 0, 0, 0, 0, 0, 0, 0] ++ [97]) =
      Except.error DeserializationError.outOfData ∧
    decode ([0, 0, 0, 1, 0, 0, 0, 0, 0, 0, 0, 0,
        0, 0, 0, 0x14, 0, 0, 0, 0x63] ++ [1, 2, 3]) =
      Except.error DeserializationError.outOfData :=
  ⟨(decode_out_of_data_boundary []).1 (by decide),
    ((decode_out_of_data_boundary ([0, 0, 0, 1, 0, 0, 0, 0x14, 0, 5, 0, 0,
        0, 0, 0, 0, 0, 0, 0, 0] ++ [97])).2 ⟨0, 1, 20, 5, 0, 0, 0⟩
      (by decide)).1 (by decide) (by decide),
    (((decode_out_of_data_boundary ([0, 0, 0, 1, 0, 0, 0, 0, 0, 0, 0, 0,
        0, 0, 0, 0x14, 0, 0, 0, 0x63] ++ [1, 2, 3])).2
      ⟨0, 1, 0, 0, 0, 20, 0x63⟩ (by decide)).2 (by decide)
      (by decide)).2.1 (by decide)⟩

/-- C7: for a buffer whose header declares a present URI with an in-range
(offset, length) window, decode fails with the text-encoding
(invalid UTF-8) error when the window's bytes are not valid UTF-8, and
when they are valid UTF-8 every successful decode carries `Some` of
exactly those bytes as the URI. -/
theorem uri_utf8_validation (inp : List Nat) (r : C2PARecordInternal)
    (hr : C2PARecordInternal.from_bytes ⟨inp, 0, [0]⟩ =
      (Except.ok r, ⟨inp, 20, [0]⟩))
    (hoff : 0 < r.activeManifestUriOffset)
    (hrange : r.activeManifestUriOffset + r.activeManifestUriLength ≤
      inp.length) :
    (validUtf8 (List.take r.activeManifestUriLength
        (List.drop r.activeManifestUriOffset inp)) = false →
      decode inp = Except.error DeserializationError.invalidUtf8) ∧
    (validUtf8 (List.take r.activeManifestUriLength
        (List.drop r.activeManifestUriOffset inp)) = true →
      ∀ v, decode inp = Except.ok v →
        v.activeManifestUri = some (List.take r.activeManifestUriLength
          (List.drop r.activeManifestUriOffset inp))) := by
  constructor
  · intro hval
    unfold decode C2PA.from_bytes
    simp only [ReaderContext.push]
    rw [hr]
    simp [ReaderContext.de_counted, ReaderContext.top_of_table, hoff,
      hrange, hval]
  · intro hval v hv
    unfold decode C2PA.from_bytes at hv
    simp only [ReaderContext.push] at hv
    rw [hr] at hv
    simp [ReaderContext.de_counted, ReaderContext.top_of_table, hoff,
      hrange, hval, ReaderContext.pop] at hv
    split at hv
    · simp at hv
    · simp at hv
      subst hv
      simp

/-- C7 witness: a 1-byte URI payload `FF` is rejected with the UTF-8
error, and the valid payload `A` (`0x41`) decodes to `Some` of exactly
that byte. -/
theorem uri_utf8_validation_witness :
    decode ([0, 0, 0, 1, 0, 0, 0, 0x14, 0, 1, 0, 0,
        0, 0, 0, 0, 0, 0, 0, 0] ++ [0xFF]) =
      Except.error DeserializationError.invalidUtf8 ∧
    (⟨0, 1, some [0x41], none⟩ : C2PA).activeManifestUri =
      some (List.take 1 (List.drop 20
        ([0, 0, 0, 1, 0, 0, 0, 0x14, 0, 1, 0, 0,
          0, 0, 0, 0, 0, 0, 0, 0] ++ [0x41]))) :=
  ⟨(uri_utf8_validation
      ([0, 0, 0, 1, 0, 0, 0, 0x14, 0, 1, 0, 0,
        0, 0, 0, 0, 0, 0, 0, 0] ++ [0xFF]) ⟨0, 1, 20, 1, 0, 0, 0⟩
      (by decide) (by decide) (by decide)).1 (by decide),
    (uri_utf8_validation
      ([0, 0, 0, 1, 0, 0, 0, 0x14, 0, 1, 0, 0,
        0, 0, 0, 0, 0, 0, 0, 0] ++ [0x41]) ⟨0, 1, 20, 1, 0, 0, 0⟩
      (by decide) (by decide) (by decide)).2 (by decide)
      ⟨0, 1, some [0x41], none⟩ (by decide)⟩
